import Mathlib

/-!
# Verification of the waterrower_ble core against its specification

Shallow embedding of the repository's core components:

* `IndoorBikeDataCharacteristic.updateData`
  (src/ble/ftms/IndoorBike/indoor-bike-data-chracteristic.ts),
* `TrainingSession` (src/training/training-session.ts),
* `HeartRateMonitor.parseHeartRateData` (src/ble/heart-rate-monitor.ts),
* the serial datapoint decoding pipeline (src/waterrower-serial/waterrower-serial.ts
  `setupStreams`, with the register table of src/waterrower-serial/datapoints-config.ts),
* recording / replay (`startRecording` / `playRecording` of waterrower-serial.ts).

JavaScript numbers are modelled as `JsNum`: either a rational or `NaN`
(the claims under study never hit binary-float rounding, but do hit the
JavaScript `NaN` comparison and byte-truncation semantics, which are
modelled explicitly).  Buffers are lists of byte values.
-/

namespace WaterrowerBLE

/-- A JavaScript number: a rational value or `NaN`. -/
inductive JsNum where
  | num (q : ℚ)
  | nan
deriving DecidableEq

namespace JsNum

/-- JavaScript strict equality `===` on numbers: `NaN` compares unequal
to everything, including itself. -/
def strictEq : JsNum → JsNum → Bool
  | num a, num b => a == b
  | _, _ => false

/-- JavaScript loose equality `x == 0` for a number `x` (`NaN == 0` is false). -/
def looseEqZero : JsNum → Bool
  | num a => a == 0
  | nan => false

/-- JavaScript `x > 0` (false when `x` is `NaN`). -/
def gtZero : JsNum → Bool
  | num a => 0 < a
  | nan => false

/-- JavaScript multiplication; `NaN` propagates. -/
def mul : JsNum → JsNum → JsNum
  | num a, num b => num (a * b)
  | _, _ => nan

end JsNum

/-- JavaScript `v === Number.NaN` where `v : number | null`
(`null === NaN` and `x === NaN` are both always false). -/
def nullableStrictEqNaN : Option JsNum → Bool
  | none => false
  | some x => JsNum.strictEq x JsNum.nan

/-- Model of `Buffer.writeUInt16LE(value)`: Node range-checks `value > 0xffff || value < 0`
(comparisons with `NaN` are false, so `NaN` passes and each byte store coerces it
to 0), then stores `ToUint8(value)` and `ToUint8(value >>> 8)`, which for a
non-negative in-range value truncates toward zero first.  `none` models the
thrown `ERR_OUT_OF_RANGE`. -/
def writeUInt16LEBytes : JsNum → Option (ℕ × ℕ)
  | JsNum.nan => some (0, 0)
  | JsNum.num q =>
    if q > 65535 ∨ q < 0 then none
    else
      let n := (⌊q⌋).toNat
      some (n % 256, n / 256 % 256)

/-- Flags word written by `updateData`:
`IndoorBikeDataFlag.InstantaneousCadence (0x0004) |
 IndoorBikeDataFlag.InstantaneousPowerPresent (0x0040) |
 IndoorBikeDataFlag.MoreData (0x0001)`
(constants from src/ble/heart-rate-monitor-events.ts). -/
def indoorBikeDataFlags : ℕ := 0x0004 ||| 0x0040 ||| 0x0001

/-- Mutable fields of `IndoorBikeDataCharacteristic`:
`_updateValueCallback` presence, `_power` and `_cadence` (both start at 0). -/
structure BikeCharState where
  hasCallback : Bool
  power : JsNum
  cadence : JsNum
deriving DecidableEq

/-- Model of `IndoorBikeDataCharacteristic.updateData(power, cadence)`
(indoor-bike-data-chracteristic.ts lines 51-77), translated line by line.
Returns the state after the call and the notification buffer passed to
`_updateValueCallback` (`none` when no callback is registered, or when a
buffer write throws). -/
def updateData (power cadence : Option JsNum) (st : BikeCharState) :
    BikeCharState × Option (List ℕ) :=
  if st.hasCallback = false then (st, none)
  else
    -- `if (power === Number.NaN || cadence === Number.NaN)` only logs; no return.
    let cad := cadence.getD st.cadence
    let pow := power.getD st.power
    let pow := if pow.looseEqZero && cad.gtZero then st.power else pow
    let st' : BikeCharState := { st with power := pow, cadence := cad }
    match writeUInt16LEBytes (cad.mul (JsNum.num 8)),
        writeUInt16LEBytes (pow.mul (JsNum.num (3 / 2))) with
    | some (cl, ch), some (pl, ph) =>
      (st', some [indoorBikeDataFlags % 256, indoorBikeDataFlags / 256 % 256,
        cl, ch, pl, ph])
    | _, _ => (st', none)

/-- The guard expression `power === Number.NaN || cadence === Number.NaN`
of `updateData` (lines 56-58). -/
def updateDataInvalidGuard (power cadence : Option JsNum) : Bool :=
  nullableStrictEqNaN power || nullableStrictEqNaN cadence

/-- Initial characteristic state after `onSubscribe` registered a callback. -/
def subscribedBikeChar : BikeCharState :=
  { hasCallback := true, power := JsNum.num 0, cadence := JsNum.num 0 }

/-- Feeding the §4.D mapping for a `stroke_rate` then a `kcal_watts` sample
into the characteristic: `update(power=∅, cadence=sr)` then
`update(power=w, cadence=∅)`; result is the final state and last buffer. -/
def feedStrokeRateThenWatts (sr w : ℕ) : BikeCharState × Option (List ℕ) :=
  let r1 := updateData none (some (JsNum.num sr)) subscribedBikeChar
  updateData (some (JsNum.num w)) none r1.1

/-! ## Decimal digit helpers

JavaScript `String(n)` / `parseInt` round-trips are modelled with an
explicit, kernel-computable digit expansion. -/

/-- Base-10 digits of `n`, least significant first, via an explicit fuel
argument (equal to `Nat.digits 10 n`, see `decDigitsRev_eq_digits`). -/
def decDigitsRevAux : ℕ → ℕ → List ℕ
  | 0, _ => []
  | _ + 1, 0 => []
  | fuel + 1, n + 1 => ((n + 1) % 10) :: decDigitsRevAux fuel ((n + 1) / 10)

/-- Base-10 digits of `n`, least significant first. -/
def decDigitsRev (n : ℕ) : List ℕ := decDigitsRevAux n n

/-- The decimal character string JavaScript's `String(n)` produces for a
natural `n` (most significant digit first; `"0"` for zero). -/
def natToDecChars (n : ℕ) : List Char :=
  if n = 0 then ['0'] else ((decDigitsRev n).map Nat.digitChar).reverse

/-- Model of the `parseInt(value, 16)` applied by `TrainingSession.processWaterRowerData`
to a `DataPoint.value` that is already a number: JavaScript stringifies the
number to decimal and re-parses those digits in base 16 (every decimal digit
is a valid hex digit, so the whole string is consumed). -/
def jsParseIntDecAsHex (n : ℕ) : ℕ := Nat.ofDigits 16 (decDigitsRev n)

/-! ## Training session (src/training/training-session.ts) -/

/-- The session scratchpad `currentData : Partial<TrainingDataPoint>`. -/
structure Scratch where
  distance : Option ℕ := none
  strokeRate : Option ℕ := none
  power : Option ℕ := none
  calories : Option ℚ := none
  heartRate : Option ℕ := none
  speed : Option ℚ := none
  totalStrokes : Option ℕ := none
deriving DecidableEq

/-- Model of `TrainingSession.processWaterRowerData` (training-session.ts lines
198-220): the `switch (dataPoint.name)` updating the scratchpad.  The
incoming `DataPoint.value` is a number; each branch applies
`parseInt(dataPoint.value, 16)` (modelled by `jsParseIntDecAsHex`),
`total_kcal` divides by 10 and `ms_average` divides by 100. -/
def processWaterRowerData (name : String) (value : ℕ) (cur : Scratch) : Scratch :=
  if name = "stroke_rate" then { cur with strokeRate := some (jsParseIntDecAsHex value) }
  else if name = "kcal_watts" then { cur with power := some (jsParseIntDecAsHex value) }
  else if name = "m_s_total" then { cur with distance := some (jsParseIntDecAsHex value) }
  else if name = "total_kcal" then
    { cur with calories := some ((jsParseIntDecAsHex value : ℚ) / 10) }
  else if name = "strokes_cnt" then { cur with totalStrokes := some (jsParseIntDecAsHex value) }
  else if name = "ms_average" then
    { cur with speed := some ((jsParseIntDecAsHex value : ℚ) / 100) }
  else cur

/-- The `SessionState` enumeration (training-session.ts lines 23-28). -/
inductive SessionState where
  | idle
  | active
  | paused
  | finished
deriving DecidableEq

/-- The `TrainingDataPoint` record (training-session.ts lines 11-21); timestamps in
epoch milliseconds. -/
structure TrainingDataPoint where
  timestamp : ℤ
  elapsedTime : ℤ
  distance : Option ℕ
  strokeRate : Option ℕ
  power : Option ℕ
  calories : Option ℚ
  heartRate : Option ℕ
  speed : Option ℚ
  totalStrokes : Option ℕ
deriving DecidableEq

/-- Mutable fields of `TrainingSession` relevant to the state machine. -/
structure Session where
  state : SessionState
  startTime : Option ℤ
  endTime : Option ℤ
  pauseTime : Option ℤ
  totalPausedTime : ℤ
  dataPoints : List TrainingDataPoint
  currentData : Scratch
deriving DecidableEq

/-- A freshly constructed `TrainingSession`. -/
def newSession : Session :=
  { state := SessionState.idle, startTime := none, endTime := none,
    pauseTime := none, totalPausedTime := 0, dataPoints := [], currentData := {} }

/-- Model of `TrainingSession.calculateDuration` (lines 252-259):
`Math.floor(((endTime ?? now) - startTime - totalPausedTime) / 1000)`,
0 when `startTime` is unset. -/
def calculateDuration (s : Session) (now : ℤ) : ℤ :=
  match s.startTime with
  | none => 0
  | some st => Int.fdiv (s.endTime.getD now - st - s.totalPausedTime) 1000

/-- Model of `TrainingSession.start` (lines 74-126).  The `state`, connectivity and
mutation steps are translated in order; stream subscription and the timer
are modelled by `collectDataPoint` / `processWaterRowerData` below.
An `Except.error` models the synchronously thrown `Error`; the returned
session is the receiver, which the throwing paths leave untouched. -/
def startSession (s : Session) (now : ℤ) (waterRowerConnected : Bool) :
    Session × Except String Unit :=
  if s.state ≠ SessionState.idle then
    (s, Except.error "Cannot start session in this state")
  else if ¬ waterRowerConnected then
    (s, Except.error "WaterRower is not connected")
  else
    ({ s with
        state := SessionState.active
        startTime := some now
        dataPoints := []
        currentData := {} }, Except.ok ())

/-- Model of `TrainingSession.pause` (lines 128-137). -/
def pauseSession (s : Session) (now : ℤ) : Session × Except String Unit :=
  if s.state ≠ SessionState.active then
    (s, Except.error "Cannot pause session in this state")
  else
    ({ s with state := SessionState.paused, pauseTime := some now }, Except.ok ())

/-- Model of `TrainingSession.resume` (lines 139-151):
`if (this.pauseTime) totalPausedTime += Date.now() - pauseTime`. -/
def resumeSession (s : Session) (now : ℤ) : Session × Except String Unit :=
  if s.state ≠ SessionState.paused then
    (s, Except.error "Cannot resume session in this state")
  else
    let tp :=
      match s.pauseTime with
      | some p => s.totalPausedTime + (now - p)
      | none => s.totalPausedTime
    ({ s with state := SessionState.active, totalPausedTime := tp }, Except.ok ())

/-- Model of `TrainingSession.stop` (lines 153-168): guard, set `finished` and
`endTime`, return the sample vector (no sample is appended here). -/
def stopSession (s : Session) (now : ℤ) :
    Session × Except String (List TrainingDataPoint) :=
  if s.state = SessionState.idle ∨ s.state = SessionState.finished then
    (s, Except.error "Cannot stop session in this state")
  else
    let s2 := { s with state := SessionState.finished, endTime := some now }
    (s2, Except.ok s2.dataPoints)

/-- The `datapoints$` subscription handler installed by `start` (lines
95-104): ignore the sample unless the session is `ACTIVE`, otherwise apply
`processWaterRowerData`. -/
def onWaterRowerSample (s : Session) (name : String) (value : ℕ) : Session :=
  if s.state ≠ SessionState.active then s
  else { s with currentData := processWaterRowerData name value s.currentData }

/-- Model of `TrainingSession.collectDataPoint` (lines 231-250): on every one-second
tick while `ACTIVE`, build a sample from the scratchpad, push it onto
`dataPoints` and emit it (`this.emit('datapoint', dataPoint)` is modelled by
the returned `Option`). -/
def collectDataPoint (s : Session) (now : ℤ) : Session × Option TrainingDataPoint :=
  if s.state ≠ SessionState.active ∨ s.startTime = none then (s, none)
  else
    let dp : TrainingDataPoint :=
      { timestamp := now, elapsedTime := calculateDuration s now,
        distance := s.currentData.distance, strokeRate := s.currentData.strokeRate,
        power := s.currentData.power, calories := s.currentData.calories,
        heartRate := s.currentData.heartRate, speed := s.currentData.speed,
        totalStrokes := s.currentData.totalStrokes }
    ({ s with dataPoints := s.dataPoints ++ [dp] }, some dp)

/-- Run the per-second collection timer once per listed tick time. -/
def runTicks (s : Session) (times : List ℤ) : Session :=
  times.foldl (fun s2 t => (collectDataPoint s2 t).1) s

/-- A session that is started at time 0, stays active for `n` one-second
ticks, and is stopped: `start`, `n` timer callbacks, `stop`. -/
def sessionAfterTicks (n : ℕ) : Session :=
  let s0 := (startSession newSession 0 true).1
  let s1 := runTicks s0 ((List.range n).map (fun i => Int.ofNat i + 1))
  (stopSession s1 (n : ℤ)).1

/-- One `pause`/`resume` round trip at times `pr.1` and `pr.2`. -/
def pauseResumeStep (s : Session) (pr : ℤ × ℤ) : Session :=
  (resumeSession (pauseSession s pr.1).1 pr.2).1

/-- A full trace `start t0 → (pause p, resume r)* → stop te` on a fresh
session with the WaterRower connected. -/
def runTrace (t0 : ℤ) (prs : List (ℤ × ℤ)) (te : ℤ) : Session :=
  (stopSession (prs.foldl pauseResumeStep (startSession newSession t0 true).1) te).1

/-- Total milliseconds spent paused in a list of pause/resume pairs. -/
def pausedSum (prs : List (ℤ × ℤ)) : ℤ := (prs.map (fun pr => pr.2 - pr.1)).sum

/-! ## Heart-rate measurement parsing (src/ble/heart-rate-monitor.ts) -/

/-- Model of `HeartRateMonitor.parseHeartRateData` (lines 672-691): byte 0 is the
flags byte, bit 0 selects 8-bit (`data.readUInt8(1)`) versus 16-bit
(`data.readUInt16LE(1)`) rate encoding.  `none` models the `RangeError`
thrown by a read past the end of the buffer. -/
def parseHeartRateData (data : List ℕ) : Option ℕ :=
  match data with
  | [] => none
  | flags :: rest =>
    if flags &&& 0x01 ≠ 0 then
      match rest with
      | b1 :: b2 :: _ => some (b1 + 256 * b2)
      | _ => none
    else
      match rest with
      | b1 :: _ => some b1
      | _ => none

/-! ## Serial datapoint decoding (src/waterrower-serial) -/

/-- One row of the register table
(src/waterrower-serial/datapoints-config.ts, `DataPointDefinition`). -/
structure DataPointDefinition where
  name : String
  address : String
  length : Char
  radix : ℕ
deriving DecidableEq

/-- The register table `DataPoints`
(src/waterrower-serial/datapoints-config.ts lines 258-317). -/
def DataPoints : List DataPointDefinition := [
  { name := "mph", address := "1A3", length := 'D', radix := 10 },
  { name := "stroke_rate", address := "1A9", length := 'S', radix := 16 },
  { name := "screen_mode", address := "00D", length := 'S', radix := 16 },
  { name := "screen_sub_mode", address := "00E", length := 'S', radix := 16 },
  { name := "screen_interval", address := "00F", length := 'S', radix := 16 },
  { name := "m_s_distance_dec", address := "054", length := 'S', radix := 16 },
  { name := "m_s_distance", address := "055", length := 'D', radix := 16 },
  { name := "distance", address := "057", length := 'D', radix := 16 },
  { name := "test_count", address := "059", length := 'S', radix := 16 },
  { name := "clock_down_dec", address := "05A", length := 'A', radix := 16 },
  { name := "clock_down", address := "05B", length := 'D', radix := 16 },
  { name := "total_dis_dec", address := "080", length := 'S', radix := 16 },
  { name := "total_dis", address := "081", length := 'D', radix := 16 },
  { name := "pins_per_xxcm", address := "083", length := 'S', radix := 16 },
  { name := "distance_xxcm", address := "084", length := 'S', radix := 16 },
  { name := "kcal_watts", address := "088", length := 'D', radix := 16 },
  { name := "total_kcal", address := "08A", length := 'D', radix := 16 },
  { name := "tank_volume", address := "0A9", length := 'S', radix := 16 },
  { name := "strokes_cnt", address := "140", length := 'D', radix := 16 },
  { name := "stroke_average", address := "142", length := 'S', radix := 16 },
  { name := "stroke_pull", address := "143", length := 'S', radix := 16 },
  { name := "m_s_total", address := "148", length := 'D', radix := 16 },
  { name := "m_s_average", address := "14A", length := 'D', radix := 16 },
  { name := "m_s_stored", address := "14C", length := 'S', radix := 16 },
  { name := "m_s_proj_avg", address := "14D", length := 'D', radix := 16 },
  { name := "display_sec_dec", address := "1E0", length := 'S', radix := 10 },
  { name := "display_sec", address := "1E1", length := 'S', radix := 10 },
  { name := "display_min", address := "1E2", length := 'S', radix := 10 },
  { name := "display_hr", address := "1E3", length := 'S', radix := 10 },
  { name := "workout_time", address := "1E8", length := 'D', radix := 16 },
  { name := "workout_ms", address := "1EA", length := 'D', radix := 16 },
  { name := "workout_stroke", address := "1EC", length := 'D', radix := 16 },
  { name := "workout_limit", address := "1EE", length := 'D', radix := 16 }]

/-- Digit value of a character as JavaScript `parseInt` sees it
(`0-9`, `a-z`, `A-Z`). -/
def jsDigitVal (c : Char) : Option ℕ :=
  if '0' ≤ c ∧ c ≤ '9' then some (c.toNat - 48)
  else if 'A' ≤ c ∧ c ≤ 'Z' then some (c.toNat - 55)
  else if 'a' ≤ c ∧ c ≤ 'z' then some (c.toNat - 87)
  else none

/-- Digit value accepted in the given radix. -/
def jsDigitValIn (radix : ℕ) (c : Char) : Option ℕ :=
  match jsDigitVal c with
  | some d => if d < radix then some d else none
  | none => none

/-- Accumulate the longest valid digit run, JavaScript-`parseInt` style. -/
def jsParseIntAux (radix : ℕ) : List Char → ℕ → ℕ
  | [], acc => acc
  | c :: rest, acc =>
    match jsDigitValIn radix c with
    | some d => jsParseIntAux radix rest (radix * acc + d)
    | none => acc

/-- Model of `parseInt(s, radix)` on a digit string: parses the longest valid prefix;
`none` models the `NaN` result when no leading digit is valid. -/
def jsParseInt (radix : ℕ) (s : List Char) : Option ℕ :=
  match s with
  | [] => none
  | c :: rest =>
    match jsDigitValIn radix c with
    | some d => some (jsParseIntAux radix rest d)
    | none => none

/-- An uppercase hexadecimal digit, as used in S4 frames. -/
def isUpperHexDigit (c : Char) : Bool :=
  ('0' ≤ c && c ≤ '9') || ('A' ≤ c && c ≤ 'F')

/-- Modelled from the spec: `frame-types.ts` (the `FrameTypes` pattern
table) is not part of the snapshot.  Per spec §4.A / §6.1 a datapoint frame
is the CR/LF-terminated line `ID{S|D|T}<3-hex-address><N-hex-digits>`,
where the width tag `S`/`D`/`T` selects `N` = 2/4/6 payload hex digits.
Returns the regex groups `(m[1], m[2], m[3])`: width tag, address, value
digits; the line may carry its CR/LF terminator. -/
def execDatapointPattern (line : List Char) : Option (Char × List Char × List Char) :=
  match line with
  | 'I' :: 'D' :: w :: a1 :: a2 :: a3 :: rest =>
    let n : ℕ := if w = 'S' then 2 else if w = 'D' then 4 else 6
    if (w = 'S' || w = 'D' || w = 'T')
        && isUpperHexDigit a1 && isUpperHexDigit a2 && isUpperHexDigit a3
        && (rest.take n).length = n && (rest.take n).all isUpperHexDigit
        && (rest.drop n = [] || rest.drop n = ['\x0d', '\x0a']
            || rest.drop n = ['\x0d'] || rest.drop n = ['\x0a']) then
      some (w, [a1, a2, a3], rest.take n)
    else none
  | _ => none

/-- A decoded sample, `DataPoint` of src/waterrower-serial/data-point.ts
(`value` is a number; `none` models `NaN` from a failed `parseInt`). -/
structure SerialDataPoint where
  time : ℤ
  name : String
  address : String
  length : ℕ
  value : Option ℕ
deriving DecidableEq

/-- The `datapoints$` mapping of `WaterRower.setupStreams`
(waterrower-serial.ts lines 451-508): run the datapoint pattern, look the
address up in `DataPoints` (unknown addresses are dropped), map the width
tag through `{S:1, D:2, T:3}` and parse the value digits in the register's
radix. -/
def decodeDataPointLine (time : ℤ) (line : String) : Option SerialDataPoint :=
  match execDatapointPattern line.data with
  | none => none
  | some (w, addr, digits) =>
    let addrStr : String := String.mk addr
    match DataPoints.find? (fun p => p.address = addrStr) with
    | none => none
    | some pdef =>
      some { time := time
             name := pdef.name
             address := addrStr
             length := if w = 'S' then 1 else if w = 'D' then 2 else 3
             value := jsParseInt pdef.radix digits }

/-! ## Recording and replay (waterrower-serial.ts lines 597-646)

`startRecording` appends `JSON.stringify(read)` plus a newline per
non-pulse frame after deleting any existing file; `playRecording` reads the
file back, splits on `/\r?\n/`, `JSON.parse`s each non-empty line and
republishes each read after a delay equal to the difference between
successive recorded `time` fields.  The JSON codec for the flat
`ReadValue` record (field order `time`, `type`, `data`) is modelled
explicitly, including `JSON.stringify` string escaping. -/

/-- Frame kinds classified by the `FrameTypes` table (spec §3 raw-read
kinds; §6.5 recording format). -/
inductive FrameType where
  | datapoint
  | hardwaretype
  | pulse
  | other
deriving DecidableEq

/-- The JSON string for a frame kind. -/
def frameTypeChars : FrameType → List Char
  | FrameType.datapoint => "datapoint".data
  | FrameType.hardwaretype => "hardwaretype".data
  | FrameType.pulse => "pulse".data
  | FrameType.other => "other".data

/-- Inverse lookup for `frameTypeChars`. -/
def frameTypeOfChars (s : List Char) : Option FrameType :=
  if s = "datapoint".data then some FrameType.datapoint
  else if s = "hardwaretype".data then some FrameType.hardwaretype
  else if s = "pulse".data then some FrameType.pulse
  else if s = "other".data then some FrameType.other
  else none

/-- A classified raw serial read (`ReadValue`): arrival time in epoch
milliseconds, frame kind, raw line data. -/
structure ReadValue where
  time : ℕ
  type : FrameType
  data : List Char
deriving DecidableEq

/-- Model of `JSON.stringify` escaping of one string character: `"` and `\` are
backslash-escaped, the named control escapes are used where they exist, any
other control character becomes `\u00xx` (lowercase hex), everything else
is copied verbatim. -/
def escapeChar (c : Char) : List Char :=
  if c = '"' then ['\\', '"']
  else if c = '\\' then ['\\', '\\']
  else if c = '\x08' then ['\\', 'b']
  else if c = '\x09' then ['\\', 't']
  else if c = '\x0a' then ['\\', 'n']
  else if c = '\x0c' then ['\\', 'f']
  else if c = '\x0d' then ['\\', 'r']
  else if c.toNat < 0x20 then
    ['\\', 'u', '0', '0', Nat.digitChar (c.toNat / 16), Nat.digitChar (c.toNat % 16)]
  else [c]

/-- Model of `JSON.stringify` escaping of a whole string body. -/
def escapeString (s : List Char) : List Char := s.flatMap escapeChar

/-- Model of `JSON.stringify` on a `ReadValue` object (object key
order is insertion order: `time`, `type`, `data`). -/
def encodeReadValue (r : ReadValue) : List Char :=
  "\x7b\"time\":".data ++ natToDecChars r.time
    ++ ",\"type\":\"".data ++ frameTypeChars r.type
    ++ "\",\"data\":\"".data ++ escapeString r.data ++ "\"\x7d".data

/-- Consume an expected literal prefix. -/
def dropLead : List Char → List Char → Option (List Char)
  | [], rest => some rest
  | _ :: _, [] => none
  | p :: ps, c :: cs => if c = p then dropLead ps cs else none

/-- A decimal digit character. -/
def isDecDigit (c : Char) : Bool := '0' ≤ c && c ≤ '9'

/-- Greedy decimal-digit run with accumulator. -/
def parseDecAux : List Char → ℕ → ℕ × List Char
  | [], acc => (acc, [])
  | c :: rest, acc =>
    if isDecDigit c then parseDecAux rest (10 * acc + (c.toNat - 48))
    else (acc, c :: rest)

/-- Parse a JSON non-negative integer literal (at least one digit). -/
def parseDecChars : List Char → Option (ℕ × List Char)
  | [] => none
  | c :: rest =>
    if isDecDigit c then some (parseDecAux rest (c.toNat - 48)) else none

/-- Hexadecimal digit value for `\uXXXX` escapes (either case). -/
def hexVal (c : Char) : Option ℕ :=
  if '0' ≤ c ∧ c ≤ '9' then some (c.toNat - 48)
  else if 'a' ≤ c ∧ c ≤ 'f' then some (c.toNat - 87)
  else if 'A' ≤ c ∧ c ≤ 'F' then some (c.toNat - 55)
  else none

/-- Parse a JSON string body up to and including the closing quote,
undoing `escapeChar`; returns the decoded body and the remaining input. -/
def parseJsonString : List Char → Option (List Char × List Char)
  | [] => none
  | c :: rest =>
    if c = '"' then some ([], rest)
    else if c = '\\' then
      match rest with
      | [] => none
      | e :: r =>
        if e = '"' then (parseJsonString r).map (fun p => ('"' :: p.1, p.2))
        else if e = '\\' then (parseJsonString r).map (fun p => ('\\' :: p.1, p.2))
        else if e = '/' then (parseJsonString r).map (fun p => ('/' :: p.1, p.2))
        else if e = 'b' then (parseJsonString r).map (fun p => ('\x08' :: p.1, p.2))
        else if e = 't' then (parseJsonString r).map (fun p => ('\x09' :: p.1, p.2))
        else if e = 'n' then (parseJsonString r).map (fun p => ('\x0a' :: p.1, p.2))
        else if e = 'f' then (parseJsonString r).map (fun p => ('\x0c' :: p.1, p.2))
        else if e = 'r' then (parseJsonString r).map (fun p => ('\x0d' :: p.1, p.2))
        else if e = 'u' then
          match r with
          | h1 :: h2 :: h3 :: h4 :: r2 =>
            match hexVal h1, hexVal h2, hexVal h3, hexVal h4 with
            | some d1, some d2, some d3, some d4 =>
              (parseJsonString r2).map
                (fun p => (Char.ofNat (4096 * d1 + 256 * d2 + 16 * d3 + d4) :: p.1, p.2))
            | _, _, _, _ => none
          | _ => none
        else none
    else (parseJsonString rest).map (fun p => (c :: p.1, p.2))

/-- Model of `JSON.parse` on one recorded line, specialised to the exact object
shape `JSON.stringify` produced (`none` models a thrown `SyntaxError`). -/
def decodeReadValue (line : List Char) : Option ReadValue :=
  match dropLead "\x7b\"time\":".data line with
  | none => none
  | some r1 =>
    match parseDecChars r1 with
    | none => none
    | some (t, r2) =>
      match dropLead ",\"type\":\"".data r2 with
      | none => none
      | some r3 =>
        match parseJsonString r3 with
        | none => none
        | some (tyChars, r4) =>
          match frameTypeOfChars tyChars with
          | none => none
          | some ty =>
            match dropLead ",\"data\":\"".data r4 with
            | none => none
            | some r5 =>
              match parseJsonString r5 with
              | none => none
              | some (d, r6) =>
                if r6 = ['\x7d'] then some { time := t, type := ty, data := d }
                else none

/-- Model of `content.split(/\r?\n/)` with accumulator for the current piece. -/
def splitLinesAux : List Char → List Char → List (List Char)
  | acc, [] => [acc.reverse]
  | acc, c :: rest =>
    if c = '\x0d' then
      if rest.head? = some '\x0a' then acc.reverse :: splitLinesAux [] rest.tail
      else splitLinesAux (c :: acc) rest
    else if c = '\x0a' then acc.reverse :: splitLinesAux [] rest
    else splitLinesAux (c :: acc) rest
termination_by _ l => l.length
decreasing_by all_goals simp +arith [List.length_tail]

/-- Model of `content.split(/\r?\n/)`. -/
def splitLines (content : List Char) : List (List Char) := splitLinesAux [] content

/-- Model of `WaterRower.startRecording` (lines 597-614): delete the file if it
exists (`existsSync`/`unlinkSync`), then append one JSON line per non-pulse
frame of `reads$` in arrival order (`appendFileSync` creates the file on
first write; `none` = the file does not exist). -/
def startRecordingFile (prior : Option (List Char)) (reads : List ReadValue) :
    Option (List Char) :=
  let truncated : Option (List Char) :=
    match prior with
    | some _ => none
    | none => none
  (reads.filter (fun r => r.type ≠ FrameType.pulse)).foldl
    (fun acc r => some (acc.getD [] ++ encodeReadValue r ++ ['\x0a'])) truncated

/-- The delta list `timeSpans` computed by `playRecording`
(`reduce` seeded with `lines[0].time`): element `i` is
`time[i] - time[i-1]`, with `time[-1]` taken as `time[0]`. -/
def deltasFrom (prev : ℤ) : List ℤ → List ℤ
  | [] => []
  | t :: ts => (t - prev) :: deltasFrom t ts

/-- Model of `WaterRower.playRecording` (lines 624-646): read the file (`none`
input models the `ENOENT` throw), split into lines, keep non-empty ones,
`JSON.parse` each, compute the delay deltas seeded with `lines[0].time`
(a throw on an empty recording), and emit each read after its delta
(`concatMap`/`delay`/`tap(next)` preserves order).  The result pairs each
replayed read with its delay. -/
def playRecordingModel (file : Option (List Char)) :
    Option (List (ℤ × ReadValue)) :=
  match file with
  | none => none
  | some content =>
    let rawLines := (splitLines content).filter (fun l => 0 < l.length)
    match rawLines.mapM decodeReadValue with
    | none => none
    | some parsed =>
      match parsed with
      | [] => none
      | first :: _ =>
        some ((deltasFrom (first.time : ℤ) (parsed.map (fun r => (r.time : ℤ)))).zip parsed)

/-- The replay schedule the spec promises for a recorded stream (spec §4.B
record & replay, §6.5): exactly the non-pulse reads, in order, the first
with no delay and each subsequent one delayed by the difference between
successive recorded `time` fields. -/
def specReplaySchedule (reads : List ReadValue) : List (ℤ × ReadValue) :=
  let keep := reads.filter (fun r => r.type ≠ FrameType.pulse)
  match keep with
  | [] => []
  | first :: _ =>
    (deltasFrom (first.time : ℤ) (keep.map (fun r => (r.time : ℤ)))).zip keep

/-! ## Helper lemmas -/

theorem indoorBikeDataFlags_eq : indoorBikeDataFlags = 0x45 := by decide

theorem writeUInt16LEBytes_natCast (n : ℕ) (h : n ≤ 65535) :
    writeUInt16LEBytes (JsNum.num n) = some (n % 256, n / 256 % 256) := by
  simp only [writeUInt16LEBytes]
  rw [if_neg]
  · simp
  · push_neg
    refine ⟨?_, by positivity⟩
    exact_mod_cast h

theorem jsNum_natCast_mul_eight (n : ℕ) :
    (JsNum.num n).mul (JsNum.num 8) = JsNum.num ((8 * n : ℕ) : ℚ) := by
  simp only [JsNum.mul, JsNum.num.injEq]
  push_cast
  ring

theorem writeUInt16LEBytes_threeHalves (w : ℕ) (h : w ≤ 43690) :
    writeUInt16LEBytes ((JsNum.num w).mul (JsNum.num (3 / 2)))
      = some (3 * w / 2 % 256, 3 * w / 2 / 256 % 256) := by
  have hq : ((w : ℚ) * (3 / 2)) = ((3 * w : ℕ) : ℚ) / ((2 : ℕ) : ℚ) := by
    push_cast
    ring
  simp only [JsNum.mul, writeUInt16LEBytes]
  rw [hq, if_neg, Rat.floor_natCast_div_natCast]
  · norm_cast
  · push_neg
    constructor
    · have h3q : ((3 * w : ℕ) : ℚ) ≤ 131070 := by
        exact_mod_cast Nat.mul_le_mul_left 3 h
      rw [div_le_iff₀ (by norm_num)]
      push_cast at h3q ⊢
      linarith
    · positivity

theorem updateData_first (sr : ℕ) (h1 : sr ≤ 300) :
    updateData none (some (JsNum.num sr)) subscribedBikeChar
      = (⟨true, JsNum.num 0, JsNum.num sr⟩,
         some [0x45, 0, 8 * sr % 256, 8 * sr / 256 % 256, 0, 0]) := by
  have hcadw : writeUInt16LEBytes ((JsNum.num (sr : ℚ)).mul (JsNum.num 8))
      = some (8 * sr % 256, 8 * sr / 256 % 256) := by
    rw [jsNum_natCast_mul_eight, writeUInt16LEBytes_natCast _ (by omega)]
  have hzero : writeUInt16LEBytes ((JsNum.num (0 : ℚ)).mul (JsNum.num (3 / 2)))
      = some (0, 0) := by
    have h0 := writeUInt16LEBytes_threeHalves 0 (by omega)
    simpa using h0
  simp only [updateData, subscribedBikeChar, Option.getD_some, Option.getD_none,
    ite_self, indoorBikeDataFlags_eq, hcadw, hzero]
  norm_num

theorem updateData_second (sr w : ℕ) (h1 : sr ≤ 300) (h2 : w ≤ 2000) :
    updateData (some (JsNum.num w)) none ⟨true, JsNum.num 0, JsNum.num sr⟩
      = (⟨true, JsNum.num w, JsNum.num sr⟩,
         some [0x45, 0, 8 * sr % 256, 8 * sr / 256 % 256,
               3 * w / 2 % 256, 3 * w / 2 / 256 % 256]) := by
  have hcadw : writeUInt16LEBytes ((JsNum.num (sr : ℚ)).mul (JsNum.num 8))
      = some (8 * sr % 256, 8 * sr / 256 % 256) := by
    rw [jsNum_natCast_mul_eight, writeUInt16LEBytes_natCast _ (by omega)]
  have hpoww : writeUInt16LEBytes ((JsNum.num (w : ℚ)).mul (JsNum.num (3 / 2)))
      = some (3 * w / 2 % 256, 3 * w / 2 / 256 % 256) :=
    writeUInt16LEBytes_threeHalves w (by omega)
  have hsticky : (if (JsNum.num (w : ℚ)).looseEqZero && (JsNum.num (sr : ℚ)).gtZero
      then JsNum.num (0 : ℚ) else JsNum.num (w : ℚ)) = JsNum.num (w : ℚ) := by
    by_cases hw : (JsNum.num (w : ℚ)).looseEqZero && (JsNum.num (sr : ℚ)).gtZero
    · rw [if_pos hw]
      simp only [JsNum.looseEqZero, Bool.and_eq_true, beq_iff_eq] at hw
      rw [hw.1]
    · rw [if_neg hw]
  simp only [updateData, Option.getD_some, Option.getD_none,
    indoorBikeDataFlags_eq, hsticky, hcadw, hpoww]
  norm_num

/-! ## Claim C1 -/

/-- Claim C1, counterexample.  Feeding `stroke_rate = 24` then
`kcal_watts = 180` into the characteristic's `updateData` does **not**
produce the claimed payload `0x44 0x00 0x30 0x00 0xB4 0x00`
(flags 0x0044, cadence 48 = 24 × 2, power 180); the code produces
`0x45 0x00 0xC0 0x00 0x0E 0x01` (flags 0x0045, cadence 192 = 24 × 8,
power 270 = ⌊180 × 1.5⌋). -/
theorem claim_C1_counterexample :
    (feedStrokeRateThenWatts 24 180).2 = some [0x45, 0x00, 0xC0, 0x00, 0x0E, 0x01]
    ∧ (feedStrokeRateThenWatts 24 180).2 ≠ some [0x44, 0x00, 0x30, 0x00, 0xB4, 0x00] := by
  have h : feedStrokeRateThenWatts 24 180
      = (⟨true, JsNum.num 180, JsNum.num 24⟩,
         some [0x45, 0, 8 * 24 % 256, 8 * 24 / 256 % 256,
               3 * 180 / 2 % 256, 3 * 180 / 2 / 256 % 256]) := by
    show updateData (some (JsNum.num ((180 : ℕ) : ℚ))) none
        (updateData none (some (JsNum.num ((24 : ℕ) : ℚ))) subscribedBikeChar).1 = _
    rw [updateData_first 24 (by omega)]
    exact updateData_second 24 180 (by omega) (by omega)
  rw [h]
  refine ⟨by norm_num, ?_⟩
  norm_num

/-- Claim C1, amended.  For every `(stroke_rate, watts) ∈ [0,300] × [0,2000]`
fed to the characteristic as `update(∅, stroke_rate)` then
`update(watts, ∅)`, the 6-byte little-endian notification payload is
`[flags_lo, flags_hi, cad_lo, cad_hi, pow_lo, pow_hi]` with
`flags = MoreData | InstantaneousCadence | InstantaneousPowerPresent =
0x0045`, cadence field `= stroke_rate × 8` and power field
`= ⌊watts × 1.5⌋`; in particular after `stroke_rate = 24` then
`kcal_watts = 180` the last notification is `0x45 0x00 0xC0 0x00 0x0E 0x01`. -/
theorem claim_C1_amended (sr w : ℕ) (h1 : sr ≤ 300) (h2 : w ≤ 2000) :
    (feedStrokeRateThenWatts sr w).2
      = some [indoorBikeDataFlags % 256, indoorBikeDataFlags / 256 % 256,
              8 * sr % 256, 8 * sr / 256 % 256,
              3 * w / 2 % 256, 3 * w / 2 / 256 % 256] := by
  show (updateData (some (JsNum.num w)) none
      (updateData none (some (JsNum.num sr)) subscribedBikeChar).1).2 = _
  rw [updateData_first sr h1, updateData_second sr w h1 h2, indoorBikeDataFlags_eq]

/-- Witness for `claim_C1_amended` at `(24, 180)`. -/
theorem claim_C1_amended_witness :
    24 ≤ 300 ∧ 180 ≤ 2000
    ∧ (feedStrokeRateThenWatts 24 180).2 = some [0x45, 0x00, 0xC0, 0x00, 0x0E, 0x01] := by
  refine ⟨by norm_num, by norm_num, ?_⟩
  have h := claim_C1_amended 24 180 (by norm_num) (by norm_num)
  rw [h]
  norm_num [indoorBikeDataFlags_eq]

/-! ## Claim C10 -/

/-- Claim C10.  In `IndoorBikeDataCharacteristic.updateData`, the
invalid-value guard `power === Number.NaN || cadence === Number.NaN` is
false for every input (strict comparison with `NaN` is always false), so a
`NaN` power or cadence is never rejected: it is cached as the sticky last
value (`_power`/`_cadence` become `NaN`) and encoded into the notification
buffer (each `NaN` 16-bit field is coerced to the bytes `00 00`). -/
theorem claim_C10_nan_guard_unreachable (power cadence : Option JsNum)
    (pw cd : JsNum) :
    updateDataInvalidGuard power cadence = false
    ∧ updateData (some JsNum.nan) (some JsNum.nan) ⟨true, pw, cd⟩
        = (⟨true, JsNum.nan, JsNum.nan⟩,
           some [indoorBikeDataFlags % 256, indoorBikeDataFlags / 256 % 256, 0, 0, 0, 0]) := by
  constructor
  · cases power with
    | none => cases cadence with
      | none => rfl
      | some c => cases c <;> rfl
    | some p => cases p with
      | num q => cases cadence with
        | none => rfl
        | some c => cases c <;> rfl
      | nan => cases cadence with
        | none => rfl
        | some c => cases c <;> rfl
  · rfl

/-! ## Claim C2 -/

/-- Claim C2, counterexample.  Processing the S4 sample `m_s_total = 18`
on an empty scratchpad does not set `speed := 18 / 100` and does not leave
`distance` untouched: the code writes `parseInt(18, 16) = 24` into
`distance` and leaves `speed` and `power` unset. -/
theorem claim_C2_counterexample :
    (processWaterRowerData "m_s_total" 18 {}).speed = none
    ∧ (processWaterRowerData "m_s_total" 18 {}).power = none
    ∧ (processWaterRowerData "m_s_total" 18 {}).distance = some 24
    ∧ ¬ ((processWaterRowerData "m_s_total" 18 {}).speed = some ((18 : ℚ) / 100)
          ∧ (processWaterRowerData "m_s_total" 18 {}).distance = none) := by
  refine ⟨rfl, rfl, by decide, ?_⟩
  rintro ⟨h, -⟩
  simp [processWaterRowerData] at h

/-- Claim C2, amended.  An `m_s_total` sample is written (hex-reparsed) to
the **distance** field of the scratchpad, leaving `speed` and `power`
unchanged; `speed := value / 100` is performed only for the `ms_average`
register, and no power model is ever computed from speed
(`power` is written only by `kcal_watts` samples). -/
theorem claim_C2_amended (v : ℕ) (scr : Scratch) :
    processWaterRowerData "m_s_total" v scr
        = { scr with distance := some (jsParseIntDecAsHex v) }
    ∧ processWaterRowerData "ms_average" v scr
        = { scr with speed := some ((jsParseIntDecAsHex v : ℚ) / 100) }
    ∧ (processWaterRowerData "m_s_total" v scr).speed = scr.speed
    ∧ (processWaterRowerData "m_s_total" v scr).power = scr.power
    ∧ (processWaterRowerData "ms_average" v scr).power = scr.power := by
  refine ⟨rfl, rfl, rfl, rfl, rfl⟩

/-! ## Claim C4 -/

/-- Claim C4, counterexample.  The scratchpad `distance` is not
non-decreasing: processing `m_s_total = 10` then `m_s_total = 5` takes it
from `16` to `5` (an `m_s_total` sample overwrites, it does not take the
maximum with the previous value). -/
theorem claim_C4_counterexample :
    (processWaterRowerData "m_s_total" 10 {}).distance = some 16
    ∧ (processWaterRowerData "m_s_total" 5 (processWaterRowerData "m_s_total" 10 {})).distance
        = some 5
    ∧ (5 : ℕ) ≠ max 16 5 := by
  refine ⟨by decide, by decide, by decide⟩

/-- Claim C4, amended.  Each distance-bearing (`m_s_total`) sample
**overwrites** the scratchpad distance with `parseInt(value, 16)`
regardless of the previous value, so the distance value is not monotone. -/
theorem claim_C4_amended (v : ℕ) (scr : Scratch) :
    (processWaterRowerData "m_s_total" v scr).distance = some (jsParseIntDecAsHex v) := rfl

/-! ## Claim C3 helper lemmas -/

theorem collectDataPoint_of_active (s : Session) (now : ℤ)
    (h1 : s.state = SessionState.active) (h2 : s.startTime ≠ none) :
    (collectDataPoint s now).1.state = s.state
    ∧ (collectDataPoint s now).1.startTime = s.startTime
    ∧ (collectDataPoint s now).1.dataPoints.length = s.dataPoints.length + 1
    ∧ (collectDataPoint s now).2 ≠ none := by
  have hcond : ¬ (s.state ≠ SessionState.active ∨ s.startTime = none) := by
    push_neg
    exact ⟨h1, h2⟩
  simp [collectDataPoint, hcond]

theorem runTicks_of_active (ts : List ℤ) : ∀ s : Session,
    s.state = SessionState.active → s.startTime ≠ none →
    (runTicks s ts).state = s.state
    ∧ (runTicks s ts).startTime = s.startTime
    ∧ (runTicks s ts).dataPoints.length = s.dataPoints.length + ts.length := by
  induction ts with
  | nil => intro s h1 h2; exact ⟨rfl, rfl, rfl⟩
  | cons t ts ih =>
    intro s h1 h2
    have hstep := collectDataPoint_of_active s t h1 h2
    have hrec := ih (collectDataPoint s t).1 (hstep.1.trans h1)
      (by rw [hstep.2.1]; exact h2)
    refine ⟨?_, ?_, ?_⟩
    · show (runTicks (collectDataPoint s t).1 ts).state = s.state
      rw [hrec.1, hstep.1]
    · show (runTicks (collectDataPoint s t).1 ts).startTime = s.startTime
      rw [hrec.2.1, hstep.2.1]
    · show (runTicks (collectDataPoint s t).1 ts).dataPoints.length
        = s.dataPoints.length + (t :: ts).length
      rw [hrec.2.2, hstep.2.2.1]
      simp
      omega

theorem stopSession_dataPoints (s : Session) (now : ℤ) :
    (stopSession s now).1.dataPoints = s.dataPoints := by
  by_cases h : s.state = SessionState.idle ∨ s.state = SessionState.finished
  · simp [stopSession, h]
  · simp [stopSession, h]

theorem startSession_fresh (t0 : ℤ) :
    (startSession newSession t0 true).1
      = { state := SessionState.active, startTime := some t0, endTime := none,
          pauseTime := none, totalPausedTime := 0, dataPoints := [], currentData := {} } := by
  rfl

theorem sessionAfterTicks_length (n : ℕ) :
    (sessionAfterTicks n).dataPoints.length = n := by
  unfold sessionAfterTicks
  rw [stopSession_dataPoints]
  have h := runTicks_of_active ((List.range n).map (fun i => Int.ofNat i + 1))
    (startSession newSession 0 true).1 (by rw [startSession_fresh]) (by rw [startSession_fresh]; simp)
  rw [h.2.2, startSession_fresh]
  simp only [List.length_map, List.length_range, List.length_nil, Nat.zero_add]

/-! ## Claim C3 -/

/-- Claim C3, counterexample.  A session that is active for 125 seconds
(125 one-second ticks) and then stopped ends with **125** entries in its
sample vector, not `⌊125 / 60⌋ + 1 = 3`: `collectDataPoint` appends the
sample on every tick, and `stop()` appends nothing. -/
theorem claim_C3_counterexample :
    (sessionAfterTicks 125).dataPoints.length = 125
    ∧ (sessionAfterTicks 125).dataPoints.length ≠ 125 / 60 + 1 := by
  have h := sessionAfterTicks_length 125
  exact ⟨h, by rw [h]; decide⟩

/-- Claim C3, amended.  During an active session the per-second tick emits
a sample **and always appends it** to the session vector (not only on every
60th tick), and `stop()` appends nothing; hence a session that is active
for `n` seconds ends with `n` entries in the vector. -/
theorem claim_C3_amended (n : ℕ) (s : Session) (now : ℤ)
    (h1 : s.state = SessionState.active) (h2 : s.startTime ≠ none) :
    (sessionAfterTicks n).dataPoints.length = n
    ∧ (collectDataPoint s now).2 ≠ none
    ∧ (collectDataPoint s now).1.dataPoints.length = s.dataPoints.length + 1
    ∧ (stopSession s now).1.dataPoints = s.dataPoints := by
  have h := collectDataPoint_of_active s now h1 h2
  exact ⟨sessionAfterTicks_length n, h.2.2.2, h.2.2.1, stopSession_dataPoints s now⟩

/-- Witness for `claim_C3_amended` at `n = 125` and a just-started session. -/
theorem claim_C3_amended_witness :
    (startSession newSession 0 true).1.state = SessionState.active
    ∧ (startSession newSession 0 true).1.startTime ≠ none
    ∧ (sessionAfterTicks 125).dataPoints.length = 125 := by
  refine ⟨by rw [startSession_fresh], by rw [startSession_fresh]; simp, ?_⟩
  exact (claim_C3_amended 125 (startSession newSession 0 true).1 7
    (by rw [startSession_fresh]) (by rw [startSession_fresh]; simp)).1

/-! ## Claim C6 -/

theorem pauseResumeStep_of_active (s : Session) (p r : ℤ)
    (h1 : s.state = SessionState.active) :
    pauseResumeStep s (p, r)
      = { s with
          state := SessionState.active
          pauseTime := some p
          totalPausedTime := s.totalPausedTime + (r - p) } := by
  have hpause : pauseSession s p
      = ({ s with state := SessionState.paused, pauseTime := some p }, Except.ok ()) := by
    rw [pauseSession, if_neg]
    rw [h1]
    simp
  unfold pauseResumeStep
  rw [hpause]
  rw [resumeSession, if_neg]
  simp

theorem foldl_pauseResume_of_active (prs : List (ℤ × ℤ)) : ∀ s : Session,
    s.state = SessionState.active →
    (prs.foldl pauseResumeStep s).state = SessionState.active
    ∧ (prs.foldl pauseResumeStep s).startTime = s.startTime
    ∧ (prs.foldl pauseResumeStep s).endTime = s.endTime
    ∧ (prs.foldl pauseResumeStep s).dataPoints = s.dataPoints
    ∧ (prs.foldl pauseResumeStep s).totalPausedTime = s.totalPausedTime + pausedSum prs := by
  induction prs with
  | nil =>
    intro s h1
    refine ⟨h1, rfl, rfl, rfl, ?_⟩
    simp [pausedSum]
  | cons pr prs ih =>
    intro s h1
    obtain ⟨p, r⟩ := pr
    have hstep := pauseResumeStep_of_active s p r h1
    have hrec := ih (pauseResumeStep s (p, r)) (by rw [hstep])
    rw [List.foldl_cons]
    refine ⟨hrec.1, ?_, ?_, ?_, ?_⟩
    · rw [hrec.2.1, hstep]
    · rw [hrec.2.2.1, hstep]
    · rw [hrec.2.2.2.1, hstep]
    · rw [hrec.2.2.2.2, hstep]
      show s.totalPausedTime + (r - p) + pausedSum prs
        = s.totalPausedTime + pausedSum ((p, r) :: prs)
      simp only [pausedSum, List.map_cons, List.sum_cons]
      ring

/-- Claim C6.  For any interleaving `start → (pause → resume)* → stop`,
each `resume` adds the wall time spent in the preceding pause to
`totalPausedTime` (so the total equals the sum of the pause intervals),
and the session duration equals
`⌊((endTime ?? now) − startTime − totalPausedTime) / 1000⌋` — after `stop`
that is `⌊(te − t0 − Σ pauses) / 1000⌋` regardless of `now`; duration is
zero immediately after `start`. -/
theorem claim_C6_pause_accounting (t0 : ℤ) (prs : List (ℤ × ℤ)) (te : ℤ) (now : ℤ)
    (s : Session) (p r : ℤ) :
    (resumeSession { s with state := SessionState.paused, pauseTime := some p } r).1.totalPausedTime
        = s.totalPausedTime + (r - p)
    ∧ (runTrace t0 prs te).totalPausedTime = pausedSum prs
    ∧ calculateDuration (runTrace t0 prs te) now
        = Int.fdiv (te - t0 - pausedSum prs) 1000
    ∧ calculateDuration (startSession newSession t0 true).1 t0 = 0 := by
  constructor
  · rw [resumeSession, if_neg (by simp)]
  have hstart := startSession_fresh t0
  have hfold := foldl_pauseResume_of_active prs (startSession newSession t0 true).1
    (by rw [hstart])
  set sMid := prs.foldl pauseResumeStep (startSession newSession t0 true).1 with hMid
  have hstop : stopSession sMid te
      = ({ sMid with state := SessionState.finished, endTime := some te },
         Except.ok ({ sMid with state := SessionState.finished, endTime := some te }).dataPoints) := by
    rw [stopSession, if_neg]
    rw [hfold.1]
    simp
  have hfinal : runTrace t0 prs te
      = { sMid with state := SessionState.finished, endTime := some te } := by
    unfold runTrace
    rw [← hMid, hstop]
  have hpaused : sMid.totalPausedTime = pausedSum prs := by
    rw [hfold.2.2.2.2, hstart]
    simp
  have hstartTime : sMid.startTime = some t0 := by
    rw [hfold.2.1, hstart]
  refine ⟨?_, ?_, ?_⟩
  · rw [hfinal]
    exact hpaused
  · rw [hfinal, calculateDuration]
    simp only [hstartTime, hpaused]
    rfl
  · rw [hstart, calculateDuration]
    simp only [Option.getD_none]
    norm_num

/-! ## Claim C7 -/

/-- Claim C7.  Every public `TrainingSession` operation invoked outside its
declared legal state throws (`IllegalState`) and has no side effects:
`start` fails unless `idle`, `pause` unless `active`, `resume` unless
`paused`, `stop` unless `active` or `paused`; in each failing case the
returned session is the unchanged receiver, and in particular no operation
ever leaves the `finished` state. -/
theorem claim_C7_state_guard (s : Session) (now : ℤ) (conn : Bool) :
    (s.state ≠ SessionState.idle →
      startSession s now conn = (s, Except.error "Cannot start session in this state"))
    ∧ (s.state ≠ SessionState.active →
      pauseSession s now = (s, Except.error "Cannot pause session in this state"))
    ∧ (s.state ≠ SessionState.paused →
      resumeSession s now = (s, Except.error "Cannot resume session in this state"))
    ∧ (s.state = SessionState.idle ∨ s.state = SessionState.finished →
      stopSession s now = (s, Except.error "Cannot stop session in this state"))
    ∧ (s.state = SessionState.finished →
      (startSession s now conn).1 = s ∧ (pauseSession s now).1 = s
      ∧ (resumeSession s now).1 = s ∧ (stopSession s now).1 = s) := by
  refine ⟨?_, ?_, ?_, ?_, ?_⟩
  · intro h
    rw [startSession, if_pos h]
  · intro h
    rw [pauseSession, if_pos h]
  · intro h
    rw [resumeSession, if_pos h]
  · intro h
    rw [stopSession, if_pos h]
  · intro h
    refine ⟨?_, ?_, ?_, ?_⟩
    · rw [startSession, if_pos (by rw [h]; simp)]
    · rw [pauseSession, if_pos (by rw [h]; simp)]
    · rw [resumeSession, if_pos (by rw [h]; simp)]
    · rw [stopSession, if_pos (by rw [h]; simp)]

/-- Witness for `claim_C7_state_guard`: on a finished session every
operation fails with the unchanged session. -/
theorem claim_C7_state_guard_witness :
    startSession { newSession with state := SessionState.finished } 0 true
      = ({ newSession with state := SessionState.finished },
         Except.error "Cannot start session in this state")
    ∧ pauseSession { newSession with state := SessionState.finished } 0
      = ({ newSession with state := SessionState.finished },
         Except.error "Cannot pause session in this state")
    ∧ resumeSession { newSession with state := SessionState.finished } 0
      = ({ newSession with state := SessionState.finished },
         Except.error "Cannot resume session in this state")
    ∧ stopSession { newSession with state := SessionState.finished } 0
      = ({ newSession with state := SessionState.finished },
         Except.error "Cannot stop session in this state") := by
  have h := claim_C7_state_guard { newSession with state := SessionState.finished } 0 true
  exact ⟨h.1 (by decide), h.2.1 (by decide), h.2.2.1 (by decide), h.2.2.2.1 (by decide)⟩

/-! ## Claim C8 -/

/-- Claim C8.  For every Heart-Rate-Measurement notification buffer, if
bit 0 of the flags byte (offset 0) is clear the parsed rate is the unsigned
byte at offset 1, and if bit 0 is set it is the little-endian unsigned
16-bit value at offsets 1-2; the remaining flag bits never change the
parsed rate; `0x00 0x50` parses to 80 and `0x01 0x30 0x01` to 304. -/
theorem claim_C8_hrm_parse (flags flags2 b1 b2 : ℕ) (rest : List ℕ) :
    (flags &&& 0x01 = 0 → parseHeartRateData (flags :: b1 :: rest) = some b1)
    ∧ (flags &&& 0x01 ≠ 0 →
        parseHeartRateData (flags :: b1 :: b2 :: rest) = some (b1 + 256 * b2))
    ∧ (flags &&& 0x01 = flags2 &&& 0x01 →
        parseHeartRateData (flags :: rest) = parseHeartRateData (flags2 :: rest))
    ∧ parseHeartRateData [0x00, 0x50] = some 80
    ∧ parseHeartRateData [0x01, 0x30, 0x01] = some 304 := by
  refine ⟨?_, ?_, ?_, by decide, by decide⟩
  · intro h
    simp only [parseHeartRateData]
    rw [if_neg (by simp [h])]
  · intro h
    simp only [parseHeartRateData]
    rw [if_pos h]
  · intro h
    simp only [parseHeartRateData, h]

/-- Witness for `claim_C8_hrm_parse` at the spec's example payloads. -/
theorem claim_C8_hrm_parse_witness :
    ((0x00 : ℕ) &&& 0x01 = 0 ∧ parseHeartRateData [0x00, 0x50] = some 0x50)
    ∧ ((0x01 : ℕ) &&& 0x01 ≠ 0
        ∧ parseHeartRateData [0x01, 0x30, 0x01] = some (0x30 + 256 * 0x01)) := by
  refine ⟨⟨by decide, ?_⟩, ⟨by decide, ?_⟩⟩
  · exact (claim_C8_hrm_parse 0x00 0x00 0x50 0 []).1 (by decide)
  · exact (claim_C8_hrm_parse 0x01 0x01 0x30 0x01 []).2.1 (by decide)

/-! ## Claim C5 -/

/-- Claim C5.  Feeding the serial lines `IDS1A912` and `IDD08800C8` (with
their CR/LF terminators) to the driver's datapoint stream yields the
decoded samples `{name: "stroke_rate", value: 18}` and
`{name: "kcal_watts", value: 200}`: both payloads are parsed with radix 16
via the register table, in which `stroke_rate` sits at address `1A9` with
radix 16 (and width `S`, a 2-hex-digit payload). -/
theorem claim_C5_serial_decode :
    decodeDataPointLine 0 "IDS1A912\x0d\x0a"
      = some { time := 0, name := "stroke_rate", address := "1A9", length := 1, value := some 18 }
    ∧ decodeDataPointLine 0 "IDD08800C8\x0d\x0a"
      = some { time := 0, name := "kcal_watts", address := "088", length := 2, value := some 200 }
    ∧ (DataPoints.find? (fun p => p.name = "stroke_rate")).map (fun p => (p.address, p.radix))
      = some ("1A9", 16)
    ∧ (DataPoints.find? (fun p => p.name = "kcal_watts")).map (fun p => (p.address, p.radix))
      = some ("088", 16) := by
  refine ⟨by decide, by decide, by decide, by decide⟩

/-! ## Claim C9 helper lemmas: decimal round trip -/

theorem decDigitsRevAux_eq (fuel : ℕ) : ∀ n : ℕ, n ≤ fuel →
    decDigitsRevAux fuel n = Nat.digits 10 n := by
  induction fuel with
  | zero =>
    intro n h
    interval_cases n
    simp [decDigitsRevAux]
  | succ f ih =>
    intro n h
    match n with
    | 0 => simp [decDigitsRevAux]
    | m + 1 =>
      rw [decDigitsRevAux, Nat.digits_def' (by norm_num : (1 : ℕ) < 10) (Nat.succ_pos m)]
      congr 1
      exact ih _ (by omega)

theorem decDigitsRev_eq_digits (n : ℕ) : decDigitsRev n = Nat.digits 10 n :=
  decDigitsRevAux_eq n n le_rfl

theorem digitChar_toNat_sub (d : ℕ) (h : d < 10) : (Nat.digitChar d).toNat - 48 = d := by
  interval_cases d <;> rfl

theorem digitChar_isDecDigit (d : ℕ) (h : d < 10) : isDecDigit (Nat.digitChar d) = true := by
  interval_cases d <;> rfl

theorem foldr_decVal (ds : List ℕ) (hds : ∀ d ∈ ds, d < 10) :
    (ds.map Nat.digitChar).foldr (fun c a => 10 * a + (c.toNat - 48)) 0
      = Nat.ofDigits 10 ds := by
  induction ds with
  | nil => rfl
  | cons d ds ih =>
    have hd : d < 10 := hds d (List.mem_cons_self d ds)
    have hrest : ∀ e ∈ ds, e < 10 := fun e he => hds e (List.mem_cons_of_mem d he)
    simp only [List.map_cons, List.foldr_cons, ih hrest, digitChar_toNat_sub d hd,
      Nat.ofDigits_cons]
    ring

theorem parseDecAux_all_digits (ds : List Char) (hds : ∀ c ∈ ds, isDecDigit c = true)
    (rest : List Char) (hrest : ∀ c ∈ rest.head?, isDecDigit c = false) :
    ∀ acc : ℕ, parseDecAux (ds ++ rest) acc
      = (ds.foldl (fun a c => 10 * a + (c.toNat - 48)) acc, rest) := by
  induction ds with
  | nil =>
    intro acc
    match rest, hrest with
    | [], _ => rfl
    | c :: r, hr =>
      have : isDecDigit c = false := hr c rfl
      simp [parseDecAux, this]
  | cons c ds ih =>
    intro acc
    have hc : isDecDigit c = true := hds c (List.mem_cons_self c ds)
    have hds2 : ∀ e ∈ ds, isDecDigit e = true := fun e he => hds e (List.mem_cons_of_mem c he)
    simp only [List.cons_append, parseDecAux, hc, if_true, List.foldl_cons]
    exact ih hds2 _

theorem natToDecChars_all_digits (n : ℕ) :
    ∀ c ∈ natToDecChars n, isDecDigit c = true := by
  intro c hc
  unfold natToDecChars at hc
  by_cases h0 : n = 0
  · rw [if_pos h0] at hc
    simp at hc
    rw [hc]
    rfl
  · rw [if_neg h0] at hc
    rw [List.mem_reverse, List.mem_map] at hc
    obtain ⟨d, hd, rfl⟩ := hc
    rw [decDigitsRev_eq_digits] at hd
    exact digitChar_isDecDigit d (Nat.digits_lt_base (by norm_num) hd)

theorem natToDecChars_ne_nil (n : ℕ) : natToDecChars n ≠ [] := by
  unfold natToDecChars
  by_cases h0 : n = 0
  · rw [if_pos h0]
    simp
  · rw [if_neg h0]
    simp only [ne_eq, List.reverse_eq_nil_iff, List.map_eq_nil_iff]
    rw [decDigitsRev_eq_digits]
    simp [Nat.digits_ne_nil_iff_ne_zero, h0]

theorem foldl_natToDecChars (n : ℕ) :
    (natToDecChars n).foldl (fun a c => 10 * a + (c.toNat - 48)) 0 = n := by
  unfold natToDecChars
  by_cases h0 : n = 0
  · rw [if_pos h0, h0]
    rfl
  · rw [if_neg h0, List.foldl_reverse]
    have h1 : ∀ d ∈ decDigitsRev n, d < 10 := by
      intro d hd
      rw [decDigitsRev_eq_digits] at hd
      exact Nat.digits_lt_base (by norm_num) hd
    have h2 := foldr_decVal (decDigitsRev n) h1
    calc ((decDigitsRev n).map Nat.digitChar).foldr (fun x y => 10 * y + (x.toNat - 48)) 0
        = Nat.ofDigits 10 (decDigitsRev n) := h2
      _ = n := by rw [decDigitsRev_eq_digits]; exact_mod_cast Nat.ofDigits_digits 10 n

theorem parseDecChars_natToDecChars (n : ℕ) (rest : List Char)
    (hrest : ∀ c ∈ rest.head?, isDecDigit c = false) :
    parseDecChars (natToDecChars n ++ rest) = some (n, rest) := by
  obtain ⟨c, cs, hcons⟩ : ∃ c cs, natToDecChars n = c :: cs := by
    match h : natToDecChars n with
    | [] => exact absurd h (natToDecChars_ne_nil n)
    | c :: cs => exact ⟨c, cs, rfl⟩
  have hall := natToDecChars_all_digits n
  rw [hcons] at hall ⊢
  have hc : isDecDigit c = true := hall c (List.mem_cons_self c cs)
  have hcs : ∀ e ∈ cs, isDecDigit e = true := fun e he => hall e (List.mem_cons_of_mem c he)
  simp only [List.cons_append, parseDecChars, hc, if_true]
  rw [parseDecAux_all_digits cs hcs rest hrest (c.toNat - 48)]
  have hval := foldl_natToDecChars n
  rw [hcons] at hval
  simp only [List.foldl_cons] at hval
  rw [show 10 * 0 + (c.toNat - 48) = c.toNat - 48 by omega] at hval
  rw [hval]

/-! ## Claim C9 helper lemmas: JSON string round trip -/

theorem dropLead_append (p rest : List Char) : dropLead p (p ++ rest) = some rest := by
  induction p with
  | nil => rfl
  | cons c cs ih => simp [dropLead, ih]

theorem hexVal_digitChar (d : ℕ) (h : d < 16) : hexVal (Nat.digitChar d) = some d := by
  interval_cases d <;> rfl

theorem hexVal_char_zero : hexVal '0' = some 0 := rfl

theorem parseJsonString_escape (s : List Char) : ∀ rest : List Char,
    parseJsonString (escapeString s ++ '"' :: rest) = some (s, rest) := by
  induction s with
  | nil =>
    intro rest
    rw [parseJsonString.eq_def]
    simp +decide [escapeString]
  | cons c cs ih =>
    intro rest
    have hsplit : escapeString (c :: cs) = escapeChar c ++ escapeString cs := by
      simp [escapeString]
    rw [hsplit, List.append_assoc]
    by_cases h1 : c = '"'
    · subst h1
      rw [parseJsonString.eq_def]
      simp +decide [escapeChar, ih]
    · by_cases h2 : c = '\\'
      · subst h2
        rw [parseJsonString.eq_def]
        simp +decide [escapeChar, ih]
      · by_cases h3 : c = '\x08'
        · subst h3
          rw [parseJsonString.eq_def]
          simp +decide [escapeChar, ih]
        · by_cases h4 : c = '\x09'
          · subst h4
            rw [parseJsonString.eq_def]
            simp +decide [escapeChar, ih]
          · by_cases h5 : c = '\x0a'
            · subst h5
              rw [parseJsonString.eq_def]
              simp +decide [escapeChar, ih]
            · by_cases h6 : c = '\x0c'
              · subst h6
                rw [parseJsonString.eq_def]
                simp +decide [escapeChar, ih]
              · by_cases h7 : c = '\x0d'
                · subst h7
                  rw [parseJsonString.eq_def]
                  simp +decide [escapeChar, ih]
                · by_cases h8 : c.toNat < 0x20
                  · rw [escapeChar, if_neg h1, if_neg h2, if_neg h3, if_neg h4,
                      if_neg h5, if_neg h6, if_neg h7, if_pos h8]
                    have hhi : c.toNat / 16 < 16 := by omega
                    have hlo : c.toNat % 16 < 16 := by omega
                    rw [parseJsonString.eq_def]
                    simp +decide only [List.cons_append, List.nil_append, ite_true,
                      ite_false, hexVal_char_zero, hexVal_digitChar _ hhi,
                      hexVal_digitChar _ hlo, ih, Option.map_some,
                      show (4096 * 0 + 256 * 0 + 16 * (c.toNat / 16) + c.toNat % 16)
                        = c.toNat by omega, Char.ofNat_toNat]
                    rfl
                  · rw [escapeChar, if_neg h1, if_neg h2, if_neg h3, if_neg h4,
                      if_neg h5, if_neg h6, if_neg h7, if_neg h8]
                    simp only [List.cons_append, List.nil_append]
                    rw [parseJsonString.eq_def]
                    simp [h1, h2, ih]

theorem escapeString_frameTypeChars (ft : FrameType) :
    escapeString (frameTypeChars ft) = frameTypeChars ft := by
  cases ft <;> rfl

theorem frameTypeOfChars_frameTypeChars (ft : FrameType) :
    frameTypeOfChars (frameTypeChars ft) = some ft := by
  cases ft <;> rfl

theorem decodeReadValue_encodeReadValue (r : ReadValue) :
    decodeReadValue (encodeReadValue r) = some r := by
  have hsplit : encodeReadValue r
      = "\x7b\"time\":".data ++ (natToDecChars r.time
        ++ (",\"type\":\"".data ++ (frameTypeChars r.type
        ++ ('"' :: (",\"data\":\"".data
        ++ (escapeString r.data ++ '"' :: ['\x7d'])))))) := by
    show "\x7b\"time\":".data ++ natToDecChars r.time
        ++ ",\"type\":\"".data ++ frameTypeChars r.type
        ++ "\",\"data\":\"".data ++ escapeString r.data ++ "\"\x7d".data = _
    simp only [List.append_assoc]
    rfl
  have hnum := parseDecChars_natToDecChars r.time
    (",\"type\":\"".data ++ (frameTypeChars r.type
      ++ ('"' :: (",\"data\":\"".data ++ (escapeString r.data ++ '"' :: ['\x7d'])))))
    (by
      intro c hc
      have hcc : ',' = c := by simpa using hc
      rw [← hcc]
      rfl)
  have hty : parseJsonString (frameTypeChars r.type ++ '"' :: (",\"data\":\"".data
      ++ (escapeString r.data ++ '"' :: ['\x7d'])))
      = some (frameTypeChars r.type, ",\"data\":\"".data
          ++ (escapeString r.data ++ '"' :: ['\x7d'])) := by
    conv in frameTypeChars r.type ++ _ =>
      rw [← escapeString_frameTypeChars r.type]
    exact parseJsonString_escape (frameTypeChars r.type) _
  rw [decodeReadValue, hsplit]
  simp only [dropLead_append, hnum, hty, frameTypeOfChars_frameTypeChars,
    parseJsonString_escape r.data ['\x7d'], ite_true, reduceIte]

/-! ## Claim C9 helper lemmas: line framing -/

theorem digitChar_not_crlf (d : ℕ) (h : d < 16) :
    Nat.digitChar d ≠ '\x0a' ∧ Nat.digitChar d ≠ '\x0d' := by
  interval_cases d <;> exact ⟨by decide, by decide⟩

theorem escapeChar_not_crlf (c e : Char) (he : e ∈ escapeChar c) :
    e ≠ '\x0a' ∧ e ≠ '\x0d' := by
  unfold escapeChar at he
  by_cases h1 : c = '"'
  · rw [if_pos h1] at he
    simp at he
    rcases he with rfl | rfl <;> exact ⟨by decide, by decide⟩
  · rw [if_neg h1] at he
    by_cases h2 : c = '\\'
    · rw [if_pos h2] at he
      simp at he
      subst he
      exact ⟨by decide, by decide⟩
    · rw [if_neg h2] at he
      by_cases h3 : c = '\x08'
      · rw [if_pos h3] at he
        simp at he
        rcases he with rfl | rfl <;> exact ⟨by decide, by decide⟩
      · rw [if_neg h3] at he
        by_cases h4 : c = '\x09'
        · rw [if_pos h4] at he
          simp at he
          rcases he with rfl | rfl <;> exact ⟨by decide, by decide⟩
        · rw [if_neg h4] at he
          by_cases h5 : c = '\x0a'
          · rw [if_pos h5] at he
            simp at he
            rcases he with rfl | rfl <;> exact ⟨by decide, by decide⟩
          · rw [if_neg h5] at he
            by_cases h6 : c = '\x0c'
            · rw [if_pos h6] at he
              simp at he
              rcases he with rfl | rfl <;> exact ⟨by decide, by decide⟩
            · rw [if_neg h6] at he
              by_cases h7 : c = '\x0d'
              · rw [if_pos h7] at he
                simp at he
                rcases he with rfl | rfl <;> exact ⟨by decide, by decide⟩
              · rw [if_neg h7] at he
                by_cases h8 : c.toNat < 0x20
                · rw [if_pos h8] at he
                  simp at he
                  rcases he with rfl | rfl | rfl | rfl | rfl
                  · exact ⟨by decide, by decide⟩
                  · exact ⟨by decide, by decide⟩
                  · exact ⟨by decide, by decide⟩
                  · exact digitChar_not_crlf (c.toNat / 16) (by omega)
                  · exact digitChar_not_crlf (c.toNat % 16) (by omega)
                · rw [if_neg h8] at he
                  simp at he
                  subst he
                  constructor
                  · intro hcc
                    rw [hcc] at h8
                    exact h8 (by decide)
                  · exact h7

theorem isDecDigit_not_crlf (c : Char) (h : isDecDigit c = true) :
    c ≠ '\x0a' ∧ c ≠ '\x0d' := by
  constructor
  · intro hc
    rw [hc] at h
    exact absurd h (by decide)
  · intro hc
    rw [hc] at h
    exact absurd h (by decide)

theorem encodeReadValue_not_crlf (r : ReadValue) (c : Char)
    (hc : c ∈ encodeReadValue r) : c ≠ '\x0a' ∧ c ≠ '\x0d' := by
  unfold encodeReadValue at hc
  simp only [List.mem_append] at hc
  rcases hc with ((((((hk | hn) | hk2) | ht) | hk3) | he) | hk4)
  · fin_cases hk <;> exact ⟨by decide, by decide⟩
  · exact isDecDigit_not_crlf c (natToDecChars_all_digits r.time c hn)
  · fin_cases hk2 <;> exact ⟨by decide, by decide⟩
  · cases htype : r.type
    · rw [htype, show frameTypeChars FrameType.datapoint
        = ['d', 'a', 't', 'a', 'p', 'o', 'i', 'n', 't'] from rfl] at ht
      fin_cases ht <;> exact ⟨by decide, by decide⟩
    · rw [htype, show frameTypeChars FrameType.hardwaretype
        = ['h', 'a', 'r', 'd', 'w', 'a', 'r', 'e', 't', 'y', 'p', 'e'] from rfl] at ht
      fin_cases ht <;> exact ⟨by decide, by decide⟩
    · rw [htype, show frameTypeChars FrameType.pulse
        = ['p', 'u', 'l', 's', 'e'] from rfl] at ht
      fin_cases ht <;> exact ⟨by decide, by decide⟩
    · rw [htype, show frameTypeChars FrameType.other
        = ['o', 't', 'h', 'e', 'r'] from rfl] at ht
      fin_cases ht <;> exact ⟨by decide, by decide⟩
  · fin_cases hk3 <;> exact ⟨by decide, by decide⟩
  · rw [escapeString, List.mem_flatMap] at he
    obtain ⟨a, _, hmem⟩ := he
    exact escapeChar_not_crlf a c hmem
  · fin_cases hk4 <;> exact ⟨by decide, by decide⟩

theorem encodeReadValue_length_pos (r : ReadValue) :
    0 < (encodeReadValue r).length := by
  unfold encodeReadValue
  simp [List.length_append]

theorem splitLinesAux_line (line : List Char)
    (h : ∀ c ∈ line, c ≠ '\x0a' ∧ c ≠ '\x0d') :
    ∀ (acc rest : List Char),
      splitLinesAux acc (line ++ '\x0a' :: rest)
        = (acc.reverse ++ line) :: splitLinesAux [] rest := by
  induction line with
  | nil =>
    intro acc rest
    rw [List.nil_append, splitLinesAux]
    rw [if_neg (by decide), if_pos rfl]
    simp
  | cons c cs ih =>
    intro acc rest
    have hc := h c (List.mem_cons_self c cs)
    have hcs : ∀ e ∈ cs, e ≠ '\x0a' ∧ e ≠ '\x0d' :=
      fun e he => h e (List.mem_cons_of_mem c he)
    rw [List.cons_append, splitLinesAux]
    rw [if_neg hc.2, if_neg hc.1, ih hcs (c :: acc) rest]
    simp

theorem splitLines_joined (lines : List (List Char))
    (h : ∀ l ∈ lines, ∀ c ∈ l, c ≠ '\x0a' ∧ c ≠ '\x0d') :
    splitLines ((lines.map (fun l => l ++ ['\x0a'])).flatten) = lines ++ [[]] := by
  induction lines with
  | nil =>
    show splitLinesAux [] (List.flatten (List.map _ [])) = [] ++ [[]]
    rw [show List.flatten (List.map (fun l => l ++ ['\x0a']) ([] : List (List Char)))
      = [] from rfl]
    rw [splitLinesAux]
    simp
  | cons l ls ih =>
    have hl := h l (List.mem_cons_self l ls)
    have hls : ∀ m ∈ ls, ∀ c ∈ m, c ≠ '\x0a' ∧ c ≠ '\x0d' :=
      fun m hm => h m (List.mem_cons_of_mem l hm)
    show splitLinesAux [] ((l ++ ['\x0a']) ++ (ls.map (fun l => l ++ ['\x0a'])).flatten)
      = (l :: ls) ++ [[]]
    rw [List.append_assoc, List.singleton_append, splitLinesAux_line l hl []]
    have ih2 := ih hls
    rw [splitLines] at ih2
    rw [ih2]
    simp

theorem foldl_append_lines (lines : List (List Char)) :
    ∀ start : List Char,
      lines.foldl (fun acc l => some (acc.getD [] ++ l)) (some start)
        = some (start ++ lines.flatten) := by
  induction lines with
  | nil =>
    intro start
    simp
  | cons l ls ih =>
    intro start
    rw [List.foldl_cons]
    show ls.foldl (fun acc l => some (acc.getD [] ++ l)) (some (start ++ l)) = _
    rw [ih (start ++ l)]
    simp

theorem startRecordingFile_content (prior : Option (List Char)) (reads : List ReadValue) :
    startRecordingFile prior reads
      = match reads.filter (fun r => r.type ≠ FrameType.pulse) with
        | [] => none
        | keep =>
          some (((keep.map (fun r => encodeReadValue r ++ ['\x0a']))).flatten) := by
  unfold startRecordingFile
  have htrunc : (match prior with
      | some _ => (none : Option (List Char))
      | none => none) = none := by
    cases prior <;> rfl
  rw [htrunc]
  have hstep : ∀ (xs : List ReadValue) (start : List Char),
      xs.foldl (fun acc r => some (acc.getD [] ++ encodeReadValue r ++ ['\x0a'])) (some start)
        = some (start ++ (xs.map (fun r => encodeReadValue r ++ ['\x0a'])).flatten) := by
    intro xs
    induction xs with
    | nil => intro start; simp
    | cons x xs ih =>
      intro start
      rw [List.foldl_cons]
      show xs.foldl _ (some (start ++ encodeReadValue x ++ ['\x0a'])) = _
      rw [ih (start ++ encodeReadValue x ++ ['\x0a'])]
      simp
  match hkeep : reads.filter (fun r => r.type ≠ FrameType.pulse) with
  | [] =>
    rw [hkeep]
    rfl
  | k :: ks =>
    rw [hkeep]
    show List.foldl (fun acc r => some (acc.getD [] ++ encodeReadValue r ++ ['\x0a']))
        none (k :: ks) = _
    rw [List.foldl_cons]
    show ks.foldl _ (some ([] ++ encodeReadValue k ++ ['\x0a'])) = _
    rw [hstep ks ([] ++ encodeReadValue k ++ ['\x0a'])]
    simp

theorem mapM_decode_encode (rs : List ReadValue) :
    (rs.map encodeReadValue).mapM decodeReadValue = some rs := by
  induction rs with
  | nil => rfl
  | cons r rs ih =>
    rw [List.map_cons, List.mapM_cons, decodeReadValue_encodeReadValue r, ih]
    rfl

theorem filter_length_pos_of_all (lines : List (List Char))
    (h : ∀ l ∈ lines, 0 < l.length) :
    lines.filter (fun l => 0 < l.length) = lines := by
  rw [List.filter_eq_self]
  intro l hl
  simpa using h l hl

/-! ## Claim C9 -/

/-- Claim C9, counterexample.  The record/replay round-trip fails on the
empty case: when no non-pulse frame was recorded, `startRecording` never
created the file, and `playRecording` throws (file read fails, and even on
an empty file `lines[0].time` is a `TypeError`) instead of replaying the
empty sequence of reads. -/
theorem claim_C9_counterexample :
    startRecordingFile none ([] : List ReadValue) = none
    ∧ playRecordingModel (startRecordingFile none ([] : List ReadValue)) = none
    ∧ ¬ ∃ out : List (ℤ × ReadValue),
        playRecordingModel (startRecordingFile none ([] : List ReadValue)) = some out
        ∧ out.map Prod.snd
            = ([] : List ReadValue).filter (fun r => r.type ≠ FrameType.pulse) := by
  refine ⟨rfl, rfl, ?_⟩
  rintro ⟨out, hout, -⟩
  exact Option.noConfusion hout

theorem playRecordingModel_some (content : List Char) :
    playRecordingModel (some content)
      = match ((splitLines content).filter (fun l => 0 < l.length)).mapM decodeReadValue with
        | none => none
        | some parsed =>
          match parsed with
          | [] => none
          | first :: _ =>
            some ((deltasFrom (first.time : ℤ) (parsed.map (fun r => (r.time : ℤ)))).zip parsed) := by
  rw [playRecordingModel.eq_def]

/-- Claim C9, amended.  Recording then replaying is a round-trip on
non-pulse reads **provided at least one non-pulse frame was recorded**:
`startRecording` truncates any existing file and writes exactly the
non-pulse frames of `reads$` as one JSON object per line in arrival order,
and `playRecording` republishes exactly those reads onto `reads$` in the
same order, the first immediately (delay 0) and each subsequent one delayed
by the difference between successive recorded `time` fields.  (With no
recorded frame, replay fails instead of replaying nothing — see the
counterexample.) -/
theorem claim_C9_roundtrip_amended (prior : Option (List Char)) (reads : List ReadValue)
    (h : reads.filter (fun r => r.type ≠ FrameType.pulse) ≠ []) :
    playRecordingModel (startRecordingFile prior reads) = some (specReplaySchedule reads) := by
  rw [startRecordingFile_content prior reads]
  match hkeep : reads.filter (fun r => r.type ≠ FrameType.pulse) with
  | [] => exact absurd hkeep h
  | k :: ks =>
    rw [hkeep]
    show playRecordingModel
        (some (((k :: ks).map (fun r => encodeReadValue r ++ ['\x0a'])).flatten)) = _
    rw [playRecordingModel_some]
    have hmapmap : (k :: ks).map (fun r => encodeReadValue r ++ ['\x0a'])
        = ((k :: ks).map encodeReadValue).map (fun l => l ++ ['\x0a']) := by
      rw [List.map_map]
      rfl
    rw [hmapmap, splitLines_joined (((k :: ks)).map encodeReadValue)
      (by
        intro l hl c hc
        rw [List.mem_map] at hl
        obtain ⟨rv, _, rfl⟩ := hl
        exact encodeReadValue_not_crlf rv c hc)]
    rw [List.filter_append, filter_length_pos_of_all _
      (by
        intro l hl
        rw [List.mem_map] at hl
        obtain ⟨rv, _, rfl⟩ := hl
        exact encodeReadValue_length_pos rv)]
    rw [show (([[]] : List (List Char)).filter (fun l => decide (0 < l.length))) = [] from rfl]
    rw [List.append_nil, mapM_decode_encode (k :: ks)]
    rw [specReplaySchedule, hkeep]

/-- Witness for `claim_C9_roundtrip_amended`: a recording with a datapoint
frame at t=100, a pulse frame at t=150 (filtered out) and an `other` frame
at t=400 replays exactly the two non-pulse reads, the first with delay 0
and the second with delay 300. -/
theorem claim_C9_roundtrip_amended_witness :
    ([{ time := 100, type := FrameType.datapoint, data := "IDS1A912".data },
      { time := 150, type := FrameType.pulse, data := "P5".data },
      { time := 400, type := FrameType.other, data := "ok".data }] :
        List ReadValue).filter (fun r => r.type ≠ FrameType.pulse) ≠ []
    ∧ playRecordingModel (startRecordingFile (some "old".data)
        [{ time := 100, type := FrameType.datapoint, data := "IDS1A912".data },
         { time := 150, type := FrameType.pulse, data := "P5".data },
         { time := 400, type := FrameType.other, data := "ok".data }])
      = some [(0, { time := 100, type := FrameType.datapoint, data := "IDS1A912".data }),
              (300, { time := 400, type := FrameType.other, data := "ok".data })] := by
  refine ⟨by decide, ?_⟩
  rw [claim_C9_roundtrip_amended (some "old".data) _ (by decide)]
  decide

end WaterrowerBLE
